import Mathlib

/-!
Verification of the PCX build-configuration engine (`src/app.py`).

The Python core is shallowly embedded: parts are records, Python dicts are
association lists with unique keys, Python floats are modelled as rationals,
and code that can raise is modelled with `Except` (the error payload names the
Python exception class).  All definitions are translated from the source file;
definitions whose doc comment says "spec formula" restate the specification's
wording for comparison against the source-derived definition.
-/

namespace PCX

/-- Python `str.strip` whitespace test, restricted to the ASCII whitespace
characters that can occur in the modelled inputs. -/
def pyWs (c : Char) : Bool :=
  c = ' ' || c = '\t' || c = '\n' || c = '\r' || c = Char.ofNat 11 || c = Char.ofNat 12

/-- Python `str.strip()`. -/
def pyStrip (s : String) : String :=
  String.mk (((s.data.dropWhile pyWs).reverse.dropWhile pyWs).reverse)

/-- Python `str.lower()` on one character, modelled for ASCII and the Latin-1
letters that occur in the category synonyms (e.g. `Ã`, `É`, `Í`, `Ó`). -/
def pyLowerChar (c : Char) : Char :=
  if 'A' ≤ c ∧ c ≤ 'Z' then Char.ofNat (c.toNat + 32)
  else if 'À' ≤ c ∧ c ≤ 'Þ' ∧ c ≠ '×' then Char.ofNat (c.toNat + 32)
  else c

/-- Python `str.lower()`. -/
def pyLower (s : String) : String :=
  String.mk (s.data.map pyLowerChar)

/-- Python `str.upper()` on one character (ASCII plus Latin-1 letters). -/
def pyUpperChar (c : Char) : Char :=
  if 'a' ≤ c ∧ c ≤ 'z' then Char.ofNat (c.toNat - 32)
  else if 'à' ≤ c ∧ c ≤ 'þ' ∧ c ≠ '÷' then Char.ofNat (c.toNat - 32)
  else c

/-- Python `str.upper()`. -/
def pyUpper (s : String) : String :=
  String.mk (s.data.map pyUpperChar)

/-- `listPre n h` is true when the character list `n` starts the list `h`. -/
def listPre : List Char → List Char → Bool
  | [], _ => true
  | _ :: _, [] => false
  | a :: as, b :: bs => a == b && listPre as bs

/-- Python `needle in hay` substring test on character lists. -/
def listSub (needle : List Char) : List Char → Bool
  | [] => listPre needle []
  | c :: rest => listPre needle (c :: rest) || listSub needle rest

/-- Python `str.replace(ab, "")` for a two-character needle `ab`, removing
every non-overlapping occurrence left to right. -/
def removePair (a b : Char) : List Char → List Char
  | [] => []
  | [c] => [c]
  | c :: d :: rest =>
    if c = a ∧ d = b then removePair a b rest
    else c :: removePair a b (d :: rest)

/-- Python dict lookup `d.get(k)` on an association list. -/
def dget {α : Type} : List (String × α) → String → Option α
  | [], _ => none
  | (k', v) :: r, k => if k' = k then some v else dget r k

/-- Python dict assignment `d[k] = v`: replace the entry in place when the key
is present, otherwise append a new entry. -/
def dictSet {α : Type} : List (String × α) → String → α → List (String × α)
  | [], k, v => [(k, v)]
  | (k', v') :: r, k, v =>
    if k' = k then (k, v) :: r else (k', v') :: dictSet r k v

/-- An attribute value: Python attribute bags hold ints, floats, strings or
booleans.  Floats are modelled as rationals. -/
inductive AttrVal where
  | vint (z : ℤ)
  | vfloat (q : ℚ)
  | vstr (t : String)
  | vbool (b : Bool)
  deriving DecidableEq, Repr

/-- Python truthiness of an attribute value. -/
def pyTruthy : AttrVal → Bool
  | .vint z => z != 0
  | .vfloat q => q != 0
  | .vstr t => t != ""
  | .vbool b => b

/-- Python `x or y` over optional values (`none` models Python `None`):
returns `x` when it is truthy, otherwise `y`. -/
def pyOr (a b : Option AttrVal) : Option AttrVal :=
  match a with
  | some v => if pyTruthy v then some v else b
  | none => b

/-- Python `x or d` with a non-`None` default `d`. -/
def pyOrD (a : Option AttrVal) (d : AttrVal) : AttrVal :=
  match a with
  | some v => if pyTruthy v then v else d
  | none => d

/-- Keep an optional value only when it is truthy; models the guards
`if x and ...` applied to the result of an alias probe. -/
def tval (a : Option AttrVal) : Option AttrVal :=
  match a with
  | some v => if pyTruthy v then some v else none
  | none => none

/-- Numeric view used by Python `==` across `int`/`float`/`bool`. -/
def pyNumVal : AttrVal → Option ℚ
  | .vint z => some (z : ℚ)
  | .vfloat q => some q
  | .vbool b => some (if b then 1 else 0)
  | .vstr _ => none

/-- Python `==` on attribute values: numbers (including booleans) compare
numerically, strings compare as strings, mixed kinds are unequal. -/
def pyEq (a b : AttrVal) : Bool :=
  match pyNumVal a, pyNumVal b with
  | some x, some y => x == y
  | _, _ =>
    match a, b with
    | .vstr u, .vstr v => u == v
    | _, _ => false

/-- Digit list checks for the numeric-string parsers. -/
def allDigits (l : List Char) : Bool :=
  l.all fun c => decide ('0' ≤ c ∧ c ≤ '9')

/-- Value of a digit list, most significant first. -/
def digitsToNat (l : List Char) : ℕ :=
  l.foldl (fun a c => 10 * a + (c.toNat - 48)) 0

/-- Decimal literal without sign: `digits`, `digits.digits`, `digits.` or
`.digits`; the value of `a.b` is the integer `ab` over `10 ^ len(b)`.
Returns `none` when the form is not a valid float literal. -/
def decCore (l : List Char) : Option ℚ :=
  let ip := l.takeWhile (fun c => c != '.')
  let rest := l.dropWhile (fun c => c != '.')
  match rest with
  | [] => if !ip.isEmpty && allDigits ip then some (mkRat (digitsToNat ip) 1) else none
  | _ :: frac =>
    if frac.any (fun c => c = '.') then none
    else if ip.isEmpty && frac.isEmpty then none
    else if allDigits ip && allDigits frac then
      some (mkRat (digitsToNat (ip ++ frac)) (10 ^ frac.length))
    else none

/-- Python `float(str)`, modelled for plain decimal literals with optional
sign and surrounding whitespace (exponents and `inf`/`nan` do not occur in
the modelled data).  `none` models a raised `ValueError`. -/
def pyFloatOfString (v : String) : Option ℚ :=
  match (pyStrip v).data with
  | '+' :: r => decCore r
  | '-' :: r => (decCore r).map (fun q => -q)
  | r => decCore r

/-- Python `int(str)`: optional sign, digits only. -/
def pyIntOfString (v : String) : Option ℤ :=
  match (pyStrip v).data with
  | '+' :: r => if !r.isEmpty && allDigits r then some (digitsToNat r : ℤ) else none
  | '-' :: r => if !r.isEmpty && allDigits r then some (-(digitsToNat r : ℤ)) else none
  | r => if !r.isEmpty && allDigits r then some (digitsToNat r : ℤ) else none

/-- Truncation toward zero, Python `int(float)`. -/
def ratTrunc (q : ℚ) : ℤ :=
  if q < 0 then -(Rat.floor (-q)) else Rat.floor q

/-- Python `float(x)` on an attribute value; `none` models a raised error. -/
def pyFloat : AttrVal → Option ℚ
  | .vint z => some (z : ℚ)
  | .vfloat q => some q
  | .vbool b => some (if b then 1 else 0)
  | .vstr v => pyFloatOfString v

/-- Python `int(x)` on an attribute value; `none` models a raised error. -/
def pyInt : AttrVal → Option ℤ
  | .vint z => some z
  | .vfloat q => some (ratTrunc q)
  | .vbool b => some (if b then 1 else 0)
  | .vstr v => pyIntOfString v

/-- Python `str(x)` on an attribute value.  Floats are rendered exactly only
when integral; non-integral floats never reach an interpolated message in the
verified statements. -/
def pyStr : AttrVal → String
  | .vstr v => v
  | .vbool true => "True"
  | .vbool false => "False"
  | .vint z => toString z
  | .vfloat q => if q.den = 1 then toString q.num ++ ".0" else toString q

/-- A catalog entry (`Part` dataclass). -/
structure Part where
  id : String
  category : String
  name : String
  price : ℚ
  attributes : List (String × AttrVal)
  deriving DecidableEq, Repr

/-- `p.attributes.get(k)`. -/
def Part.attr (p : Part) (k : String) : Option AttrVal :=
  dget p.attributes k

/-- The body of `Catalog._normalize_category` after the label has been
stripped and lowercased; `fb` is the stripped original used as fallback. -/
def normCore (cl : String) (fb : String) : String :=
  if listSub "placa-mãe".data cl.data || listSub "motherboard".data cl.data
      || listSub "mainboard".data cl.data then "Placa-mãe"
  else if cl = "gpu" || cl = "placa de vídeo" || cl = "video card" then "GPU"
  else if cl = "cpu" || cl = "processador" then "CPU"
  else if cl = "ram" || cl = "memória" then "RAM"
  else if cl = "fonte" || cl = "psu" || cl = "power supply" then "Fonte"
  else if cl = "gabinete" || cl = "case" then "Gabinete"
  else if cl = "ssd" || cl = "armazenamento" || cl = "hdd" || cl = "storage" then "Armazenamento"
  else if cl = "cooler" || cl = "aio" || cl = "resfriamento" then "Cooler"
  else fb

/-- `Catalog._normalize_category`. -/
def normalize_category (cat : String) : String :=
  normCore (pyLower (pyStrip cat)) (pyStrip cat)

/-- The catalog: `by_cat` files parts under their canonical category in
insertion order, `by_id` indexes the most recent part for each id. -/
structure Catalog where
  by_cat : List (String × List Part)
  by_id : List (String × Part)
  deriving DecidableEq, Repr

/-- The empty catalog (`Catalog.__init__`). -/
def Catalog.empty : Catalog := ⟨[], []⟩

/-- `by_cat.setdefault(k, []).append(p)`: append to the list of an existing
key, or add the key with a one-element list at the end. -/
def appendAt : List (String × List Part) → String → Part → List (String × List Part)
  | [], k, p => [(k, [p])]
  | (k', l) :: r, k, p =>
    if k' = k then (k', l ++ [p]) :: r else (k', l) :: appendAt r k p

/-- The part as stored by `add_part`: the assignment
`p.category = norm_cat` replaces the category by its canonical form before
the part is indexed. -/
def recat (p : Part) : Part :=
  ⟨p.id, normalize_category p.category, p.name, p.price, p.attributes⟩

/-- `Catalog.add_part`: normalize the category, store it back on the part,
file the part under the canonical category and index it by id. -/
def add_part (c : Catalog) (p : Part) : Catalog :=
  ⟨appendAt c.by_cat (normalize_category p.category) (recat p),
   dictSet c.by_id p.id (recat p)⟩

/-- All parts reachable from `by_cat`. -/
def catParts (c : Catalog) : List Part :=
  (c.by_cat.map Prod.snd).flatten

/-- All parts reachable from `by_id`. -/
def idParts (c : Catalog) : List Part :=
  c.by_id.map Prod.snd

/-- Add a list of parts to the empty catalog, left to right. -/
def runAdds (ps : List Part) : Catalog :=
  ps.foldl add_part Catalog.empty

/-- `BuildEngine.cat_map.get(c, c)`: fold display categories onto canonical
slot names. -/
def catMap (c : String) : String :=
  if c = "Placa-mãe" then "Placa-mãe"
  else if c = "Motherboard" then "Placa-mãe"
  else if c = "GPU" then "GPU"
  else if c = "Placa de Vídeo" then "GPU"
  else if c = "CPU" then "CPU"
  else if c = "Processador" then "CPU"
  else if c = "RAM" then "RAM"
  else if c = "Memória" then "RAM"
  else if c = "Fonte" then "Fonte"
  else if c = "PSU" then "Fonte"
  else if c = "Power Supply" then "Fonte"
  else if c = "Gabinete" then "Gabinete"
  else if c = "Case" then "Gabinete"
  else if c = "Cooler" then "Cooler"
  else if c = "AIO" then "Cooler"
  else if c = "Air Cooler" then "Cooler"
  else if c = "SSD" then "Armazenamento"
  else if c = "HDD" then "Armazenamento"
  else if c = "Armazenamento" then "Armazenamento"
  else c

/-- The `BuildEngine.parts` slot dictionary: canonical category to selected
part. -/
abbrev EngineParts : Type := List (String × Part)

/-- `BuildEngine.add`: `self.parts[cat_map.get(p.category, p.category)] = p`. -/
def engine_add (s : EngineParts) (p : Part) : EngineParts :=
  dictSet s (catMap p.category) p

/-- `BuildEngine.remove`: delete the slot when present. -/
def engine_remove (s : EngineParts) (c : String) : EngineParts :=
  if (dget s c).isSome then List.filter (fun e => !(e.1 == c)) s else s

/-- A user action on the selection. -/
inductive EngineOp where
  | sel (p : Part)
  | desel (c : String)

/-- Apply one action. -/
def run_op (s : EngineParts) : EngineOp → EngineParts
  | .sel p => engine_add s p
  | .desel c => engine_remove s c

/-- Apply a sequence of actions starting from the empty selection
(`BuildEngine.__init__`). -/
def run_ops (ops : List EngineOp) : EngineParts :=
  ops.foldl run_op []

/-- The TDP contribution of one selected part:
`tdp = attrs.get('tdp_w') or attrs.get('tdp') or 0; total += float(tdp)`,
with a failed `float` silently contributing nothing. -/
def tdpContrib (p : Part) : ℚ :=
  (pyFloat (pyOrD (pyOr (p.attr "tdp_w") (p.attr "tdp")) (AttrVal.vint 0))).getD 0

/-- `BuildEngine.estimated_power`: sum the TDP contributions, add the fixed
50 W baseline, return `(int(total), int(ceil(total * 1.3)))`. -/
def estimated_power (s : EngineParts) : ℤ × ℤ :=
  (ratTrunc (s.foldl (fun acc e => acc + tdpContrib e.2) 0 + 50),
   Rat.ceil ((s.foldl (fun acc e => acc + tdpContrib e.2) 0 + 50) * (13 / 10)))

/-- Spec formula: `consumed` is the fixed 50 W baseline plus the sum of the
coercible TDP values of the occupied slots. -/
def consumed_of (s : EngineParts) : ℚ :=
  50 + (s.map (fun e => tdpContrib e.2)).sum

/-- Compatibility rule 1, CPU vs motherboard socket. -/
def socket_rule (s : EngineParts) : List String :=
  match dget s "CPU", dget s "Placa-mãe" with
  | some cpu, some mb =>
    match tval (pyOr (cpu.attr "soquete") (cpu.attr "socket")),
          tval (pyOr (mb.attr "soquete") (mb.attr "socket")) with
    | some cv, some mv =>
      if pyEq cv mv then []
      else ["Soquete incompatível: CPU(" ++ pyStr cv ++ ") != Placa-mãe(" ++ pyStr mv ++ ")"]
    | _, _ => []
  | _, _ => []

/-- Compatibility rule 2, CPU BIOS advisory (evaluated inside the same
`if cpu and mb:` block as the socket rule). -/
def bios_rule (s : EngineParts) : List String :=
  match dget s "CPU", dget s "Placa-mãe" with
  | some cpu, some _ =>
    match tval (pyOr (cpu.attr "required_bios") (cpu.attr "bios_note")) with
    | some v => ["Aviso BIOS: " ++ pyStr v]
    | none => []
  | _, _ => []

/-- Compatibility rule 3, RAM vs motherboard memory type.  The `.upper()`
calls are not guarded by `try`, so a truthy non-string value raises
`AttributeError`, modelled as `Except.error`. -/
def ram_rule (s : EngineParts) : Except String (List String) :=
  match dget s "RAM", dget s "Placa-mãe" with
  | some ram, some mb =>
    match tval (pyOr (pyOr (ram.attr "tipo") (ram.attr "mem_type")) (ram.attr "type")),
          tval (pyOr (mb.attr "mem_type") (mb.attr "ram_type")) with
    | some rv, some mv =>
      match rv with
      | .vstr rt =>
        match mv with
        | .vstr mt =>
          if pyUpper rt = pyUpper mt then Except.ok []
          else Except.ok ["Tipo de RAM incompatível: " ++ pyUpper rt ++ " != " ++ pyUpper mt]
        | _ => Except.error "AttributeError"
      | _ => Except.error "AttributeError"
    | _, _ => Except.ok []
  | _, _ => Except.ok []

/-- Compatibility rule 4, GPU length vs case clearance; the whole comparison
is wrapped in `try`, so coercion failures silently skip the rule. -/
def gpu_case_rule (s : EngineParts) : List String :=
  match dget s "GPU", dget s "Gabinete" with
  | some gpu, some cs =>
    match tval (pyOr (gpu.attr "comprimento_mm") (gpu.attr "length_mm")),
          tval (pyOr (cs.attr "gpu_max_mm") (cs.attr "max_gpu_length_mm")) with
    | some gv, some cv =>
      match pyFloat gv, pyFloat cv with
      | some x, some y =>
        if y < x then ["GPU muito longa: " ++ pyStr gv ++ "mm > gabinete " ++ pyStr cv ++ "mm"]
        else []
      | _, _ => []
    | _, _ => []
  | _, _ => []

/-- Compatibility rule 5, cooler height vs case clearance (also wrapped in
`try`). -/
def cooler_case_rule (s : EngineParts) : List String :=
  match dget s "Cooler", dget s "Gabinete" with
  | some cooler, some cs =>
    match tval (pyOr (cooler.attr "height_mm") (cooler.attr "altura_mm")),
          tval (pyOr (cs.attr "cooler_clearance_mm") (cs.attr "max_cooler_height_mm")) with
    | some hv, some cv =>
      match pyFloat hv, pyFloat cv with
      | some x, some y =>
        if y < x then ["Cooler muito alto: " ++ pyStr hv ++ "mm > clearance " ++ pyStr cv ++ "mm"]
        else []
      | _, _ => []
    | _, _ => []
  | _, _ => []

/-- Compatibility rule 6, PSU sufficiency: the probed wattage must be truthy
and coerce via `int`; a coercion failure is swallowed by `try`. -/
def psu_rule (s : EngineParts) : List String :=
  match dget s "Fonte" with
  | some psu =>
    match tval (pyOr (psu.attr "watt") (psu.attr "power_w")) with
    | some wv =>
      match pyInt wv with
      | some n =>
        if n < (estimated_power s).2 then
          ["Fonte pode ser insuficiente: " ++ pyStr wv ++ "W < recomendado "
            ++ toString (estimated_power s).2 ++ "W"]
        else []
      | none => []
    | none => []
  | none => []

/-- `BuildEngine.compatibility_issues`: the six rules in order; an exception
raised by the RAM rule aborts the whole call. -/
def compatibility_issues (s : EngineParts) : Except String (List String) :=
  match ram_rule s with
  | Except.error e => Except.error e
  | Except.ok r3 =>
    Except.ok (socket_rule s ++ bios_rule s ++ r3 ++ gpu_case_rule s
      ++ cooler_case_rule s ++ psu_rule s)

/-- `str(storage.attributes.get('form_factor', '')).lower()`. -/
def ffOf (st : Part) : String :=
  pyLower (pyStr ((st.attr "form_factor").getD (AttrVal.vstr "")))

/-- `(dget s k).isSome`: the slot is occupied. -/
def occ (s : EngineParts) (k : String) : Bool :=
  (dget s k).isSome

/-- The instruction lines of `BuildEngine.assembly_steps` before the warning
block is considered. -/
def base_steps (s : EngineParts) : List String :=
  ["Ferramentas: chave Phillips #2, pasta térmica, pulseira antiestática (opcional)."]
  ++ (if occ s "Placa-mãe" then
        ["1) Preparação da Placa-mãe: Coloque a placa em cima da caixa antiestática."]
        ++ (if occ s "CPU" then
              ["2) Instalar CPU na placa-mãe: Alinhar o triângulo/seta, levantar a alavanca e fechar com cuidado."]
            else [])
        ++ (if occ s "Cooler" then
              ["3) Instalar cooler/AIO e aplicar pasta térmica se necessário (ou se não pré-aplicada)."]
            else [])
        ++ (if occ s "RAM" then
              ["4) Inserir módulos de RAM nos slots corretos (consultar manual da placa-mãe para dual channel)."]
            else [])
        ++ (match dget s "Armazenamento" with
            | some st =>
              if ffOf st = "m.2" then
                ["5) Instalar SSD M.2 nos slots da placa-mãe e parafusar com cuidado."]
              else []
            | none => [])
      else
        ["1) Instalar CPU e Cooler (se for o caso) antes de encaixar a Placa-mãe."]
        ++ (if occ s "RAM" then ["2) Inserir RAM nos slots da Placa-mãe."] else []))
  ++ (if occ s "Fonte" then
        ["6) Instalar Fonte no compartimento e rotear os cabos principais (CPU/24pinos) por trás da placa-mãe."]
      else [])
  ++ (if occ s "Placa-mãe" then
        ["7) Instalar Placa-mãe nos \u0027standoffs\u0027 (espaçadores) do gabinete e parafusar com cuidado."]
      else [])
  ++ (match dget s "Armazenamento" with
      | some st =>
        if ffOf st = "2.5" || ffOf st = "3.5" || ffOf st = "sata" then
          ["8) Instalar drive SATA (SSD/HDD) nas baias e conectar cabos de dados (SATA) e energia."]
        else []
      | none => [])
  ++ (if occ s "GPU" then
        ["9) Instalar GPU no slot PCIe x16 (geralmente o de cima) e conectar cabos PCIe de energia (se necessário)."]
      else [])
  ++ ["10) Conectar cabos frontais (Power/Reset, USB, Áudio) e organizar todos os cabos com abraçadeiras.",
      "11) Conectar periféricos (Monitor, Teclado, Mouse) e ligar o sistema para o POST inicial."]

/-- `BuildEngine.assembly_steps`: the instruction lines, with a warning
header and the indented issues inserted in front when any issue was found;
an exception from `compatibility_issues` propagates. -/
def assembly_steps (s : EngineParts) : Except String (List String) :=
  match compatibility_issues s with
  | Except.error e => Except.error e
  | Except.ok issues =>
    Except.ok (if issues.isEmpty then base_steps s
      else ("⚠ Atenção: Foram detectados problemas de compatibilidade — reveja antes de ligar:"
              :: issues.map (fun it => " - " ++ it))
            ++ base_steps s)

/-- `_parse_price_brl`, negative-index access `s[-3]`: raises `IndexError`
when the string is shorter than three characters. -/
def pyIdxNeg3 (s : List Char) : Except String Char :=
  if h : 3 ≤ s.length then
    Except.ok (s.get ⟨s.length - 3, by omega⟩)
  else Except.error "IndexError"

/-- The last branch of `_parse_price_brl`: collapse multiple periods, turn
commas into decimal points. -/
def brlElse (s : List Char) : List Char :=
  let s1 := if 1 < s.count '.' then s.filter (fun c => c != '.') else s
  s1.map (fun c => if c = ',' then '.' else c)

/-- The `elif`/`else` part of `_parse_price_brl`'s separator analysis. -/
def brlElif (s : List Char) : Except String (List Char) :=
  if s.count '.' = 1 then
    match pyIdxNeg3 s with
    | Except.error e => Except.error e
    | Except.ok c => if c = '.' then Except.ok s else Except.ok (brlElse s)
  else Except.ok (brlElse s)

/-- The separator analysis of `_parse_price_brl`: the indexing `s[-3]` can
raise before any branch is taken. -/
def brlCore (s : List Char) : Except String (List Char) :=
  if s.count ',' = 1 then
    match pyIdxNeg3 s with
    | Except.error e => Except.error e
    | Except.ok c =>
      if c = ',' then
        Except.ok ((s.filter (fun d => d != '.')).map (fun d => if d = ',' then '.' else d))
      else brlElif s
  else brlElif s

/-- `_parse_price_brl`: strip symbols and whitespace, analyse the decimal
separator, parse as float with failures yielding `0.0`.  The argument is
optional because callers pass `None`. -/
def parse_price_brl (text : Option String) : Except String ℚ :=
  match text with
  | none => Except.ok 0
  | some t =>
    if t = "" then Except.ok 0
    else
      let t1 := ((pyStrip t).data.map (fun c => if c = '\n' then ' ' else c)).filter
        (fun c => c != ' ')
      let t2 := removePair 'r' '$' (removePair 'R' '$' t1)
      let s := t2.filter (fun c => c ∈ "0123456789.,".data)
      if s.isEmpty then Except.ok 0
      else
        match brlCore s with
        | Except.error e => Except.error e
        | Except.ok s2 => Except.ok ((pyFloatOfString (String.mk s2)).getD 0)


/-! ## Helper lemmas -/

instance {ε α : Type} [DecidableEq ε] [DecidableEq α] : DecidableEq (Except ε α) := fun a b =>
  match a, b with
  | .ok x, .ok y =>
    if h : x = y then .isTrue (by rw [h])
    else .isFalse (by intro hc; cases hc; exact h rfl)
  | .error x, .error y =>
    if h : x = y then .isTrue (by rw [h])
    else .isFalse (by intro hc; cases hc; exact h rfl)
  | .ok _, .error _ => .isFalse (by intro hc; cases hc)
  | .error _, .ok _ => .isFalse (by intro hc; cases hc)

/-- Folding the TDP contributions equals the sum of the mapped list. -/
theorem foldl_add_tdp (l : List (String × Part)) (a : ℚ) :
    l.foldl (fun acc e => acc + tdpContrib e.2) a
      = a + (l.map (fun e => tdpContrib e.2)).sum := by
  induction l generalizing a with
  | nil => simp
  | cons e t ih => simp only [List.foldl_cons, List.map_cons, List.sum_cons, ih]; ring

/-- `estimated_power` computes truncation and ceiling of the spec-formula
consumption. -/
theorem estimated_power_eq (s : EngineParts) :
    estimated_power s = (ratTrunc (consumed_of s), Rat.ceil (consumed_of s * (13 / 10))) := by
  have h : s.foldl (fun acc e => acc + tdpContrib e.2) 0 + 50 = consumed_of s := by
    rw [foldl_add_tdp]
    unfold consumed_of
    ring
  unfold estimated_power
  rw [h]

/-- Zero contributions do not change the TDP sum. -/
theorem sum_filter_ne_zero (l : List ℚ) :
    (l.filter (fun q => q != 0)).sum = l.sum := by
  induction l with
  | nil => rfl
  | cons a t ih =>
    by_cases ha : a = 0
    · simp [List.filter_cons, bne_iff_ne, ha, ih]
    · simp [List.filter_cons, bne_iff_ne, ha, ih, List.sum_cons]

/-! ## Claims C4, C10, C9, C8, C2 -/

/-- The canonical category names produced by `Catalog._normalize_category`. -/
def canonical_categories : List String :=
  ["Placa-mãe", "GPU", "CPU", "RAM", "Fonte", "Gabinete", "Armazenamento", "Cooler"]

/-- The synonym foldings actually implemented by the source (the
specification additionally lists "processor" and "memory", which the code
does not fold). -/
def synonym_table : List (String × String) :=
  [("placa-mãe", "Placa-mãe"), ("motherboard", "Placa-mãe"), ("mainboard", "Placa-mãe"),
   ("gpu", "GPU"), ("placa de vídeo", "GPU"), ("video card", "GPU"),
   ("cpu", "CPU"), ("processador", "CPU"),
   ("ram", "RAM"), ("memória", "RAM"),
   ("fonte", "Fonte"), ("psu", "Fonte"), ("power supply", "Fonte"),
   ("gabinete", "Gabinete"), ("case", "Gabinete"),
   ("ssd", "Armazenamento"), ("armazenamento", "Armazenamento"),
   ("hdd", "Armazenamento"), ("storage", "Armazenamento"),
   ("cooler", "Cooler"), ("aio", "Cooler"), ("resfriamento", "Cooler")]

/-- Claim C4, counterexample: the code does not fold the spec-listed
synonyms "processor" and "memory"; they pass through unchanged instead of
normalizing like their listed Portuguese forms "processador" and
"memória". -/
theorem claim_C4_counterexample :
    normalize_category "processor" ≠ normalize_category "processador" ∧
    normalize_category "memory" ≠ normalize_category "memória" := by
  decide

/-- Claim C4 (amended): normalization is idempotent on every canonical
category name, and every synonym the code folds (all of the spec table
except "processor" and "memory") normalizes to its canonical value from any
letter case and surrounding whitespace. -/
theorem claim_C4_normalization_amended :
    (∀ c ∈ canonical_categories, normalize_category c = c) ∧
    (∀ pr ∈ synonym_table, ∀ s : String,
      pyLower (pyStrip s) = pr.1 → normalize_category s = pr.2) := by
  constructor
  · intro c hc
    fin_cases hc <;> rfl
  · intro pr hpr
    fin_cases hpr <;> (intro s hs; unfold normalize_category; rw [hs]) <;> rfl

/-- Witness for C4: the amended theorem applied to the canonical name "CPU"
and to a cased, padded spelling of the synonym "gpu". -/
theorem claim_C4_normalization_amended_witness :
    normalize_category "CPU" = "CPU" ∧ normalize_category "  GpU " = "GPU" :=
  ⟨claim_C4_normalization_amended.1 "CPU" (by decide),
   claim_C4_normalization_amended.2 ("gpu", "GPU") (by decide) "  GpU " (by decide)⟩

/-- Claim C10: the empty selection still reports the 50 W baseline and a
recommendation of `ceil(50 * 1.3) = 65`. -/
theorem claim_C10_empty_power : estimated_power ([] : EngineParts) = (50, 65) := by
  rw [estimated_power_eq]
  have h : consumed_of ([] : EngineParts) = 50 := by simp [consumed_of]
  rw [h]
  have h2 : (50 : ℚ) * (13 / 10) = mkRat 65 1 := by
    rw [Rat.mkRat_eq_div]
    norm_num
  rw [h2]
  decide

/-- Claim C9: the RAM-vs-motherboard rule is not exception-safe — with a
truthy non-string RAM memory-type attribute (`tipo = 4`) and a string
motherboard memory type, `ram_t.upper()` raises `AttributeError`, which
propagates out of `compatibility_issues` instead of skipping the rule. -/
theorem claim_C9_ram_rule_eval :
    compatibility_issues
      [("RAM", ⟨"ram_x", "RAM", "Generic DDR", 0, [("tipo", AttrVal.vint 4)]⟩),
       ("Placa-mãe", ⟨"mb_x", "Placa-mãe", "Board", 0, [("mem_type", AttrVal.vstr "DDR4")]⟩)]
      = Except.error "AttributeError" := rfl

/-- Claim C8: the spec examples parse as stated, but the parser is not
total — a cleaned string of fewer than three characters containing one comma
(such as "R$,5") makes `s[-3]` raise `IndexError`. -/
theorem claim_C8_currency_eval :
    parse_price_brl (some "R$ 1.234,56") = Except.ok ((123456 : ℚ) / 100) ∧
    parse_price_brl (some "R$79,90") = Except.ok ((799 : ℚ) / 10) ∧
    parse_price_brl none = Except.ok 0 ∧
    parse_price_brl (some "") = Except.ok 0 ∧
    parse_price_brl (some "abc") = Except.ok 0 ∧
    parse_price_brl (some "R$,5") = Except.error "IndexError" := by
  refine ⟨?_, ?_, rfl, rfl, rfl, rfl⟩
  · have h : parse_price_brl (some "R$ 1.234,56") = Except.ok (mkRat 123456 100) := by
      decide
    rw [h]
    congr 1
    rw [Rat.mkRat_eq_div]
    norm_num
  · have h : parse_price_brl (some "R$79,90") = Except.ok (mkRat 7990 100) := by
      decide
    rw [h]
    congr 1
    rw [Rat.mkRat_eq_div]
    norm_num

/-- Claim C2 (amended): `estimated_power` returns the pair
(trunc-toward-zero(consumed), ceil(consumed * 1.3)) for the spec-formula
consumption — the claim said `floor`, but Python `int()` truncates toward
zero, which agrees with `floor` only for non-negative consumption — and any
selection whose non-zero TDP contributions are exactly {65, 170} yields
(285, 371). -/
theorem claim_C2_power_formula_amended :
    (∀ s : EngineParts,
      estimated_power s = (ratTrunc (consumed_of s), Rat.ceil (consumed_of s * (13 / 10))))
    ∧ (∀ s : EngineParts,
      List.Perm ((s.map (fun e => tdpContrib e.2)).filter (fun q => q != 0)) [65, 170] →
      estimated_power s = (285, 371)) := by
  refine ⟨estimated_power_eq, ?_⟩
  intro s h
  have hsum : (s.map (fun e => tdpContrib e.2)).sum = 235 := by
    rw [← sum_filter_ne_zero, h.sum_eq]
    norm_num
  have hc : consumed_of s = 285 := by
    unfold consumed_of
    rw [hsum]
    norm_num
  have h2 : (285 : ℚ) * (13 / 10) = mkRat 741 2 := by
    rw [Rat.mkRat_eq_div]
    norm_num
  rw [estimated_power_eq, hc, h2]
  decide

/-- Witness for C2: a CPU with `tdp_w = 65` and a GPU with `tdp = 170`. -/
theorem claim_C2_power_formula_amended_witness :
    estimated_power
      [("CPU", ⟨"cpu_w", "CPU", "CPU65", 0, [("tdp_w", AttrVal.vint 65)]⟩),
       ("GPU", ⟨"gpu_w", "GPU", "GPU170", 0, [("tdp", AttrVal.vint 170)]⟩)]
      = (285, 371) :=
  claim_C2_power_formula_amended.2 _ (by decide)

/-- The one-slot selection whose TDP attribute is the float -50.7. -/
def negTdpState : EngineParts :=
  [("GPU", ⟨"gpu_n", "GPU", "Odd", 0, [("tdp_w", AttrVal.vfloat (mkRat (-507) 10))]⟩)]

/-- Claim C2, counterexample: with a single slot whose TDP is -50.7 the
consumption is -0.7; `int()` truncates it to 0 while the claimed `floor`
is -1, so the returned first component is not `floor(consumed)`. -/
theorem claim_C2_floor_counterexample :
    (estimated_power negTdpState).1 ≠ Rat.floor (consumed_of negTdpState) := by
  have hc : consumed_of negTdpState = mkRat (-7) 10 := by
    simp only [negTdpState, consumed_of, List.map_cons, List.map_nil, List.sum_cons,
      List.sum_nil]
    rw [show tdpContrib
        ⟨"gpu_n", "GPU", "Odd", 0, [("tdp_w", AttrVal.vfloat (mkRat (-507) 10))]⟩
        = mkRat (-507) 10 from by decide]
    rw [Rat.mkRat_eq_div, Rat.mkRat_eq_div]
    norm_num
  rw [estimated_power_eq, hc]
  decide

/-! ## Claim C1 -/

/-- Claim C1: for any selection with Motherboard, CPU, RAM, PSU, Case and
GPU occupied, Cooler and Storage empty, and no compatibility issues, the
assembly guide is exactly the tooling line, motherboard preparation, CPU
seating, RAM seating, PSU mounting, standoff mounting, GPU seating, and the
two closing lines, with no warning block. -/
theorem claim_C1_assembly_order (s : EngineParts)
    (pmb pcpu pram pfonte pgab pgpu : Part)
    (hmb : dget s "Placa-mãe" = some pmb)
    (hcpu : dget s "CPU" = some pcpu)
    (hram : dget s "RAM" = some pram)
    (hfonte : dget s "Fonte" = some pfonte)
    (_hgab : dget s "Gabinete" = some pgab)
    (hgpu : dget s "GPU" = some pgpu)
    (hcooler : dget s "Cooler" = none)
    (hstor : dget s "Armazenamento" = none)
    (hiss : compatibility_issues s = Except.ok []) :
    assembly_steps s = Except.ok
      ["Ferramentas: chave Phillips #2, pasta térmica, pulseira antiestática (opcional).",
       "1) Preparação da Placa-mãe: Coloque a placa em cima da caixa antiestática.",
       "2) Instalar CPU na placa-mãe: Alinhar o triângulo/seta, levantar a alavanca e fechar com cuidado.",
       "4) Inserir módulos de RAM nos slots corretos (consultar manual da placa-mãe para dual channel).",
       "6) Instalar Fonte no compartimento e rotear os cabos principais (CPU/24pinos) por trás da placa-mãe.",
       "7) Instalar Placa-mãe nos \u0027standoffs\u0027 (espaçadores) do gabinete e parafusar com cuidado.",
       "9) Instalar GPU no slot PCIe x16 (geralmente o de cima) e conectar cabos PCIe de energia (se necessário).",
       "10) Conectar cabos frontais (Power/Reset, USB, Áudio) e organizar todos os cabos com abraçadeiras.",
       "11) Conectar periféricos (Monitor, Teclado, Mouse) e ligar o sistema para o POST inicial."] := by
  unfold assembly_steps
  rw [hiss]
  simp [base_steps, occ, hmb, hcpu, hram, hfonte, hgpu, hcooler, hstor]

/-- The six-slot demonstration build used to witness C1. -/
def demoBuildState : EngineParts :=
  [("Placa-mãe", ⟨"mb_d", "Placa-mãe", "Board D", 0, []⟩),
   ("CPU", ⟨"cpu_d", "CPU", "CPU D", 0, []⟩),
   ("RAM", ⟨"ram_d", "RAM", "RAM D", 0, []⟩),
   ("Fonte", ⟨"psu_d", "Fonte", "PSU D", 0, []⟩),
   ("Gabinete", ⟨"case_d", "Gabinete", "Case D", 0, []⟩),
   ("GPU", ⟨"gpu_d", "GPU", "GPU D", 0, []⟩)]

/-- Witness for C1: the theorem applied to the demonstration build, whose
issue list is empty because no part carries attributes. -/
theorem claim_C1_assembly_order_witness :
    assembly_steps demoBuildState = Except.ok
      ["Ferramentas: chave Phillips #2, pasta térmica, pulseira antiestática (opcional).",
       "1) Preparação da Placa-mãe: Coloque a placa em cima da caixa antiestática.",
       "2) Instalar CPU na placa-mãe: Alinhar o triângulo/seta, levantar a alavanca e fechar com cuidado.",
       "4) Inserir módulos de RAM nos slots corretos (consultar manual da placa-mãe para dual channel).",
       "6) Instalar Fonte no compartimento e rotear os cabos principais (CPU/24pinos) por trás da placa-mãe.",
       "7) Instalar Placa-mãe nos \u0027standoffs\u0027 (espaçadores) do gabinete e parafusar com cuidado.",
       "9) Instalar GPU no slot PCIe x16 (geralmente o de cima) e conectar cabos PCIe de energia (se necessário).",
       "10) Conectar cabos frontais (Power/Reset, USB, Áudio) e organizar todos os cabos com abraçadeiras.",
       "11) Conectar periféricos (Monitor, Teclado, Mouse) e ligar o sistema para o POST inicial."] :=
  claim_C1_assembly_order demoBuildState _ _ _ _ _ _
    rfl rfl rfl rfl rfl rfl rfl rfl (by decide)

/-! ## Claim C7 -/

/-- A successful `compatibility_issues` call is the concatenation of the six
rule outputs, with the RAM rule having returned normally. -/
theorem compatibility_issues_ok (s : EngineParts) (l : List String)
    (h : compatibility_issues s = Except.ok l) :
    ∃ r3, ram_rule s = Except.ok r3 ∧
      l = socket_rule s ++ bios_rule s ++ r3 ++ gpu_case_rule s
        ++ cooler_case_rule s ++ psu_rule s := by
  unfold compatibility_issues at h
  cases hr : ram_rule s with
  | error e =>
    rw [hr] at h
    cases h
  | ok r3 =>
    rw [hr] at h
    cases h
    exact ⟨r3, rfl, rfl⟩

/-- Claim C7 (amended): when the CPU slot carries a truthy
`required_bios`/`bios_note` attribute AND the Motherboard slot is also
occupied, the BIOS advisory is among the issues whenever the call returns
normally, regardless of the socket comparison.  (The original claim, that
the advisory appears even without a motherboard, is refuted by the
counterexample.) -/
theorem claim_C7_bios_advisory_amended (s : EngineParts) (cpu mb : Part) (v : AttrVal)
    (hcpu : dget s "CPU" = some cpu)
    (hmb : dget s "Placa-mãe" = some mb)
    (hreq : tval (pyOr (cpu.attr "required_bios") (cpu.attr "bios_note")) = some v) :
    ∀ l, compatibility_issues s = Except.ok l → ("Aviso BIOS: " ++ pyStr v) ∈ l := by
  intro l hl
  have hb : bios_rule s = ["Aviso BIOS: " ++ pyStr v] := by
    simp only [bios_rule, hcpu, hmb, hreq]
  obtain ⟨r3, _, rfl⟩ := compatibility_issues_ok s l hl
  simp [hb]

/-- The CPU-with-motherboard selection used to witness C7. -/
def biosPairState : EngineParts :=
  [("CPU", ⟨"cpu_b", "CPU", "B", 0, [("required_bios", AttrVal.vstr "Atualize para F40")]⟩),
   ("Placa-mãe", ⟨"mb_b", "Placa-mãe", "MB", 0, []⟩)]

/-- Witness for C7: the advisory for the concrete BIOS note is in the
computed issue list. -/
theorem claim_C7_bios_advisory_amended_witness :
    ("Aviso BIOS: " ++ pyStr (AttrVal.vstr "Atualize para F40"))
      ∈ ["Aviso BIOS: Atualize para F40"] :=
  claim_C7_bios_advisory_amended biosPairState _ _ (AttrVal.vstr "Atualize para F40")
    rfl rfl rfl ["Aviso BIOS: Atualize para F40"] (by decide)

/-- The CPU-only selection with a BIOS note but no motherboard. -/
def biosLoneState : EngineParts :=
  [("CPU", ⟨"cpu_l", "CPU", "L", 0, [("required_bios", AttrVal.vstr "Atualize para F40")]⟩)]

/-- Claim C7, counterexample: with the CPU slot occupied by a part carrying
`required_bios` but the Motherboard slot empty, no BIOS advisory is
emitted — the issue list is empty, contradicting "regardless of whether any
other slot is occupied". -/
theorem claim_C7_counterexample :
    dget biosLoneState "CPU"
      = some ⟨"cpu_l", "CPU", "L", 0, [("required_bios", AttrVal.vstr "Atualize para F40")]⟩ ∧
    compatibility_issues biosLoneState = Except.ok [] := by
  decide

/-! ## Claim C3 -/

/-- Recognizes the PSU-insufficiency issue by its fixed message head. -/
def isPsuMsg (x : String) : Bool :=
  listPre "Fonte pode ser insuficiente:".data x.data

/-- A head mismatch refutes a `listPre` check. -/
theorem listPre_cons_ne (a b : Char) (as bs : List Char) (h : ¬ a = b) :
    listPre (a :: as) (b :: bs) = false := by
  show ((a == b) && listPre as bs) = false
  rw [beq_eq_false_iff_ne.mpr h, Bool.false_and]

/-- A `listPre` match survives extending the haystack on the right. -/
theorem listPre_append_left (n l1 l2 : List Char) (h : listPre n l1 = true) :
    listPre n (l1 ++ l2) = true := by
  induction n generalizing l1 with
  | nil => rfl
  | cons a as ih =>
    cases l1 with
    | nil => cases h
    | cons b bs =>
      have hab : (a == b) = true := by
        by_contra hc
        simp only [Bool.not_eq_true] at hc
        rw [show listPre (a :: as) (b :: bs) = ((a == b) && listPre as bs) from rfl, hc,
          Bool.false_and] at h
        cases h
      have htl : listPre as bs = true := by
        rw [show listPre (a :: as) (b :: bs) = ((a == b) && listPre as bs) from rfl, hab,
          Bool.true_and] at h
        exact h
      show ((a == b) && listPre as (bs ++ l2)) = true
      rw [hab, Bool.true_and]
      exact ih bs htl

/-- The socket-mismatch message is not a PSU-insufficiency message. -/
theorem isPsuMsg_socket (a b : String) :
    isPsuMsg ("Soquete incompatível: CPU(" ++ a ++ ") != Placa-mãe(" ++ b ++ ")") = false :=
  listPre_cons_ne 'F' 'S' _ _ (by decide)

/-- The BIOS advisory is not a PSU-insufficiency message. -/
theorem isPsuMsg_bios (a : String) : isPsuMsg ("Aviso BIOS: " ++ a) = false :=
  listPre_cons_ne 'F' 'A' _ _ (by decide)

/-- The RAM-type message is not a PSU-insufficiency message. -/
theorem isPsuMsg_ram (a b : String) :
    isPsuMsg ("Tipo de RAM incompatível: " ++ a ++ " != " ++ b) = false :=
  listPre_cons_ne 'F' 'T' _ _ (by decide)

/-- The GPU-length message is not a PSU-insufficiency message. -/
theorem isPsuMsg_gpu (a b : String) :
    isPsuMsg ("GPU muito longa: " ++ a ++ "mm > gabinete " ++ b ++ "mm") = false :=
  listPre_cons_ne 'F' 'G' _ _ (by decide)

/-- The cooler-height message is not a PSU-insufficiency message. -/
theorem isPsuMsg_cooler (a b : String) :
    isPsuMsg ("Cooler muito alto: " ++ a ++ "mm > clearance " ++ b ++ "mm") = false :=
  listPre_cons_ne 'F' 'C' _ _ (by decide)

/-- The PSU-insufficiency message is recognized by `isPsuMsg`. -/
theorem isPsuMsg_psu (a b : String) :
    isPsuMsg ("Fonte pode ser insuficiente: " ++ a ++ "W < recomendado " ++ b ++ "W") = true := by
  have h : (("Fonte pode ser insuficiente: " ++ a ++ "W < recomendado " ++ b ++ "W")).data
      = "Fonte pode ser insuficiente: ".data
        ++ (a.data ++ "W < recomendado ".data ++ b.data ++ "W".data) := by
    simp [String.data_append]
  unfold isPsuMsg
  rw [h]
  exact listPre_append_left _ _ _ (by decide)

/-- The socket rule never emits a PSU-insufficiency message. -/
theorem countP_isPsuMsg_socket (s : EngineParts) :
    (socket_rule s).countP isPsuMsg = 0 := by
  unfold socket_rule
  repeat' split
  all_goals simp [List.countP_cons, isPsuMsg_socket]

/-- The BIOS rule never emits a PSU-insufficiency message. -/
theorem countP_isPsuMsg_bios (s : EngineParts) :
    (bios_rule s).countP isPsuMsg = 0 := by
  unfold bios_rule
  repeat' split
  all_goals simp [List.countP_cons, isPsuMsg_bios]

/-- The RAM rule never emits a PSU-insufficiency message. -/
theorem countP_isPsuMsg_ram (s : EngineParts) (r3 : List String)
    (h : ram_rule s = Except.ok r3) : r3.countP isPsuMsg = 0 := by
  unfold ram_rule at h
  repeat' split at h
  all_goals cases h
  all_goals simp [List.countP_cons, isPsuMsg_ram]

/-- The GPU-clearance rule never emits a PSU-insufficiency message. -/
theorem countP_isPsuMsg_gpu (s : EngineParts) :
    (gpu_case_rule s).countP isPsuMsg = 0 := by
  unfold gpu_case_rule
  repeat' split
  all_goals simp [List.countP_cons, isPsuMsg_gpu]

/-- The cooler-clearance rule never emits a PSU-insufficiency message. -/
theorem countP_isPsuMsg_cooler (s : EngineParts) :
    (cooler_case_rule s).countP isPsuMsg = 0 := by
  unfold cooler_case_rule
  repeat' split
  all_goals simp [List.countP_cons, isPsuMsg_cooler]

/-- Claim C3 (amended): when the PSU slot is occupied and the probed
wattage is truthy and coerces to the integer `n`, the PSU rule emits the
insufficiency issue exactly when `n < recommended` — so at `n = recommended`
the issues contain no PSU-insufficiency message and at `n = recommended - 1`
(or below) exactly one.  (The original claim also covered falsy wattages
such as 0, which the code's truthiness guard silently skips; see the
counterexample.) -/
theorem claim_C3_psu_boundary_amended (s : EngineParts) (psu : Part) (wv : AttrVal) (n : ℤ)
    (hpsu : dget s "Fonte" = some psu)
    (hw : tval (pyOr (psu.attr "watt") (psu.attr "power_w")) = some wv)
    (hn : pyInt wv = some n) :
    psu_rule s = (if n < (estimated_power s).2 then
        ["Fonte pode ser insuficiente: " ++ pyStr wv ++ "W < recomendado "
          ++ toString (estimated_power s).2 ++ "W"]
      else [])
    ∧ (∀ l, compatibility_issues s = Except.ok l →
        l.countP isPsuMsg = if n < (estimated_power s).2 then 1 else 0) := by
  have hpr : psu_rule s = (if n < (estimated_power s).2 then
      ["Fonte pode ser insuficiente: " ++ pyStr wv ++ "W < recomendado "
        ++ toString (estimated_power s).2 ++ "W"]
    else []) := by
    simp only [psu_rule, hpsu, hw, hn]
  refine ⟨hpr, ?_⟩
  intro l hl
  obtain ⟨r3, hr3, rfl⟩ := compatibility_issues_ok s l hl
  simp only [List.countP_append, countP_isPsuMsg_socket, countP_isPsuMsg_bios,
    countP_isPsuMsg_ram s r3 hr3, countP_isPsuMsg_gpu, countP_isPsuMsg_cooler,
    Nat.zero_add, hpr]
  by_cases hlt : n < (estimated_power s).2
  · simp [hlt, List.countP_cons, isPsuMsg_psu]
  · simp [hlt]

/-- `estimated_power` evaluated through the consumption value. -/
theorem estimated_power_value (s : EngineParts) (q : ℚ) (a b : ℤ)
    (hq : consumed_of s = q) (ha : ratTrunc q = a) (hb : Rat.ceil (q * (13 / 10)) = b) :
    estimated_power s = (a, b) := by
  rw [estimated_power_eq, hq, ha, hb]

/-- The PSU-only selection with a 64 W supply (recommended is 65 W). -/
def psuLowState : EngineParts :=
  [("Fonte", ⟨"psu_l", "Fonte", "Low", 0, [("watt", AttrVal.vint 64)]⟩)]

/-- Witness for C3: with a 64 W PSU against a 65 W recommendation the PSU
rule emits exactly the insufficiency message. -/
theorem claim_C3_psu_boundary_amended_witness :
    psu_rule psuLowState = ["Fonte pode ser insuficiente: 64W < recomendado 65W"] := by
  have hp : estimated_power psuLowState = (50, 65) := by
    refine estimated_power_value psuLowState 50 50 65 ?_ (by decide) ?_
    · simp only [psuLowState, consumed_of, List.map_cons, List.map_nil, List.sum_cons,
        List.sum_nil]
      rw [show tdpContrib ⟨"psu_l", "Fonte", "Low", 0, [("watt", AttrVal.vint 64)]⟩
          = 0 from by decide]
      norm_num
    · rw [show (50 : ℚ) * (13 / 10) = mkRat 65 1 from by rw [Rat.mkRat_eq_div]; norm_num]
      decide
  have h := (claim_C3_psu_boundary_amended psuLowState _ (AttrVal.vint 64) 64
    rfl rfl rfl).1
  rw [h, hp]
  decide

/-- The PSU-only selection whose wattage attributes are 0 (falsy). -/
def psuZeroState : EngineParts :=
  [("Fonte", ⟨"psu_z", "Fonte", "Zero", 0,
      [("watt", AttrVal.vint 0), ("power_w", AttrVal.vint 0)]⟩)]

/-- Claim C3, counterexample: a PSU wattage of 0 coerces to the integer 0,
which is below the recommended value, yet the truthiness guard
`if watt and ...` skips the rule and no insufficiency issue is emitted. -/
theorem claim_C3_counterexample :
    dget psuZeroState "Fonte" = some ⟨"psu_z", "Fonte", "Zero", 0,
      [("watt", AttrVal.vint 0), ("power_w", AttrVal.vint 0)]⟩ ∧
    pyInt (AttrVal.vint 0) = some 0 ∧
    (0 : ℤ) < (estimated_power psuZeroState).2 ∧
    compatibility_issues psuZeroState = Except.ok [] := by
  have hp : estimated_power psuZeroState = (50, 65) := by
    refine estimated_power_value psuZeroState 50 50 65 ?_ (by decide) ?_
    · simp only [psuZeroState, consumed_of, List.map_cons, List.map_nil, List.sum_cons,
        List.sum_nil]
      rw [show tdpContrib ⟨"psu_z", "Fonte", "Zero", 0,
          [("watt", AttrVal.vint 0), ("power_w", AttrVal.vint 0)]⟩ = 0 from by decide]
      norm_num
    · rw [show (50 : ℚ) * (13 / 10) = mkRat 65 1 from by rw [Rat.mkRat_eq_div]; norm_num]
      decide
  refine ⟨rfl, rfl, ?_, by decide⟩
  rw [hp]
  norm_num

/-! ## Claim C5 -/

/-- Setting a key makes it retrievable with the set value. -/
theorem dget_dictSet_self {α : Type} (s : List (String × α)) (k : String) (v : α) :
    dget (dictSet s k v) k = some v := by
  induction s with
  | nil => simp [dictSet, dget]
  | cons e t ih =>
    obtain ⟨k2, v2⟩ := e
    by_cases h : k2 = k
    · simp [dictSet, h, dget]
    · simp [dictSet, h, dget, ih]

/-- Keys after a `dictSet` come from the set key or the old keys. -/
theorem mem_keys_dictSet {α : Type} (s : List (String × α)) (k k2 : String) (v : α)
    (h : k2 ∈ (dictSet s k v).map Prod.fst) : k2 = k ∨ k2 ∈ s.map Prod.fst := by
  induction s with
  | nil =>
    simp [dictSet] at h
    exact Or.inl h
  | cons e t ih =>
    obtain ⟨k3, v3⟩ := e
    by_cases hk : k3 = k
    · rw [show dictSet ((k3, v3) :: t) k v = (k, v) :: t from by simp [dictSet, hk]] at h
      simp only [List.map_cons, List.mem_cons] at h
      rcases h with h | h
      · exact Or.inl h
      · exact Or.inr (by simp [h])
    · rw [show dictSet ((k3, v3) :: t) k v = (k3, v3) :: dictSet t k v from by
        simp [dictSet, hk]] at h
      simp only [List.map_cons, List.mem_cons] at h
      rcases h with h | h
      · exact Or.inr (by simp [h])
      · rcases ih h with h2 | h2
        · exact Or.inl h2
        · exact Or.inr (by simp [h2])

/-- `dictSet` preserves distinctness of the keys. -/
theorem nodup_keys_dictSet {α : Type} (s : List (String × α)) (k : String) (v : α)
    (h : (s.map Prod.fst).Nodup) : ((dictSet s k v).map Prod.fst).Nodup := by
  induction s with
  | nil => simp [dictSet]
  | cons e t ih =>
    obtain ⟨k2, v2⟩ := e
    simp only [List.map_cons, List.nodup_cons] at h
    obtain ⟨hnotin, hnd⟩ := h
    by_cases hk : k2 = k
    · subst hk
      rw [show dictSet ((k2, v2) :: t) k2 v = (k2, v) :: t from by simp [dictSet]]
      simp only [List.map_cons, List.nodup_cons]
      exact ⟨hnotin, hnd⟩
    · rw [show dictSet ((k2, v2) :: t) k v = (k2, v2) :: dictSet t k v from by
        simp [dictSet, hk]]
      simp only [List.map_cons, List.nodup_cons]
      refine ⟨?_, ih hnd⟩
      intro hmem
      rcases mem_keys_dictSet t k k2 v hmem with h2 | h2
      · exact hk h2
      · exact hnotin h2

/-- A key absent from the key list is counted zero times. -/
theorem countP_key_not_mem {α : Type} (s : List (String × α)) (k : String)
    (h : k ∉ s.map Prod.fst) : s.countP (fun e => e.1 == k) = 0 := by
  induction s with
  | nil => rfl
  | cons e t ih =>
    simp only [List.map_cons, List.mem_cons, not_or] at h
    obtain ⟨h1, h2⟩ := h
    have hb : (e.1 == k) = false := beq_eq_false_iff_ne.mpr (fun hh => h1 hh.symm)
    simp [List.countP_cons, ih h2, hb]

/-- After a `dictSet` on a key-distinct dictionary, the set key occurs
exactly once. -/
theorem countP_key_dictSet {α : Type} (s : List (String × α)) (k : String) (v : α)
    (h : (s.map Prod.fst).Nodup) :
    (dictSet s k v).countP (fun e => e.1 == k) = 1 := by
  induction s with
  | nil => simp [dictSet, List.countP_cons]
  | cons e t ih =>
    obtain ⟨k2, v2⟩ := e
    simp only [List.map_cons, List.nodup_cons] at h
    obtain ⟨hnotin, hnd⟩ := h
    by_cases hk : k2 = k
    · subst hk
      rw [show dictSet ((k2, v2) :: t) k2 v = (k2, v) :: t from by simp [dictSet]]
      have hz : t.countP (fun e => e.1 == k2) = 0 := countP_key_not_mem t k2 hnotin
      simp [List.countP_cons, hz]
    · rw [show dictSet ((k2, v2) :: t) k v = (k2, v2) :: dictSet t k v from by
        simp [dictSet, hk]]
      have hb : ((k2, v2).1 == k) = false := beq_eq_false_iff_ne.mpr hk
      simp [List.countP_cons, ih hnd, hb]

/-- On a key-distinct dictionary every key occurs at most once. -/
theorem countP_key_le_one {α : Type} (s : List (String × α)) (k : String)
    (h : (s.map Prod.fst).Nodup) : s.countP (fun e => e.1 == k) ≤ 1 := by
  induction s with
  | nil => simp
  | cons e t ih =>
    simp only [List.map_cons, List.nodup_cons] at h
    obtain ⟨hnotin, hnd⟩ := h
    by_cases hk : e.1 = k
    · have hz : t.countP (fun x => x.1 == k) = 0 := countP_key_not_mem t k (hk ▸ hnotin)
      simp [List.countP_cons, hz, hk]
    · have hb : (e.1 == k) = false := beq_eq_false_iff_ne.mpr hk
      simp [List.countP_cons, hb, ih hnd]

/-- Filtering preserves distinctness of the keys. -/
theorem nodup_keys_filter {α : Type} (s : List (String × α)) (f : String × α → Bool)
    (h : (s.map Prod.fst).Nodup) : ((s.filter f).map Prod.fst).Nodup :=
  ((List.filter_sublist s).map Prod.fst).nodup h

/-- One engine action preserves distinctness of the slot names. -/
theorem nodup_keys_run_op (s : EngineParts) (op : EngineOp)
    (h : (s.map Prod.fst).Nodup) : ((run_op s op).map Prod.fst).Nodup := by
  cases op with
  | sel p => exact nodup_keys_dictSet s _ p h
  | desel c =>
    unfold run_op engine_remove
    by_cases hc : (dget s c).isSome
    · simp only [if_pos hc]
      exact nodup_keys_filter s _ h
    · simp only [if_neg hc]
      exact h

/-- Every state reachable from the empty selection has distinct slot
names. -/
theorem nodup_keys_run_ops (ops : List EngineOp) :
    ((run_ops ops).map Prod.fst).Nodup := by
  have main : ∀ (l : List EngineOp) (s : EngineParts), (s.map Prod.fst).Nodup →
      ((l.foldl run_op s).map Prod.fst).Nodup := by
    intro l
    induction l with
    | nil => intro s h; exact h
    | cons op t ih =>
      intro s h
      exact ih (run_op s op) (nodup_keys_run_op s op h)
  exact main ops [] (by simp)

/-- Claim C5: selecting two parts of the same canonical slot in sequence
leaves that slot holding exactly the second part and exactly one entry, and
after any sequence of select/deselect operations from the empty selection a
slot never holds more than one part. -/
theorem claim_C5_slot_replacement :
    (∀ (s : EngineParts) (p1 p2 : Part), (s.map Prod.fst).Nodup → p1 ≠ p2 →
      catMap p1.category = catMap p2.category →
      dget (engine_add (engine_add s p1) p2) (catMap p2.category) = some p2 ∧
      (engine_add (engine_add s p1) p2).countP
        (fun e => e.1 == catMap p2.category) = 1)
    ∧ (∀ (ops : List EngineOp) (c : String),
      (run_ops ops).countP (fun e => e.1 == c) ≤ 1) := by
  constructor
  · intro s p1 p2 hnd _ _
    constructor
    · exact dget_dictSet_self _ _ _
    · exact countP_key_dictSet _ _ _ (nodup_keys_dictSet s _ p1 hnd)
  · intro ops c
    exact countP_key_le_one _ _ (nodup_keys_run_ops ops)

/-- Witness for C5: replacing a "CPU"-categorized part by a
"Processador"-categorized one (both fold to the CPU slot) leaves exactly
the second occupant. -/
theorem claim_C5_slot_replacement_witness :
    dget (engine_add (engine_add ([] : EngineParts)
        ⟨"cpu_a", "CPU", "A", 0, []⟩) ⟨"cpu_b", "Processador", "B", 0, []⟩)
      (catMap "Processador") = some ⟨"cpu_b", "Processador", "B", 0, []⟩ ∧
    (engine_add (engine_add ([] : EngineParts) ⟨"cpu_a", "CPU", "A", 0, []⟩)
        ⟨"cpu_b", "Processador", "B", 0, []⟩).countP
      (fun e => e.1 == catMap "Processador") = 1 :=
  claim_C5_slot_replacement.1 [] ⟨"cpu_a", "CPU", "A", 0, []⟩
    ⟨"cpu_b", "Processador", "B", 0, []⟩ (by simp) (by decide) (by decide)

/-! ## Claim C6 -/

/-- Setting an absent-or-present key leaves other lookups unchanged. -/
theorem dget_dictSet_ne {α : Type} (s : List (String × α)) (k k2 : String) (v : α)
    (h : ¬ k2 = k) : dget (dictSet s k v) k2 = dget s k2 := by
  induction s with
  | nil => simp [dictSet, dget, show ¬ k = k2 from fun hh => h hh.symm]
  | cons e t ih =>
    obtain ⟨k3, v3⟩ := e
    by_cases hk : k3 = k
    · subst hk
      rw [show dictSet ((k3, v3) :: t) k3 v = (k3, v) :: t from by simp [dictSet]]
      simp [dget, show ¬ k3 = k2 from fun hh => h hh.symm]
    · rw [show dictSet ((k3, v3) :: t) k v = (k3, v3) :: dictSet t k v from by
        simp [dictSet, hk]]
      simp [dget, ih]

/-- Entries after a `dictSet` come from the old entries or are the new
binding. -/
theorem mem_dictSet_pairs {α : Type} (s : List (String × α)) (k : String) (v : α)
    (k2 : String) (v2 : α) (h : (k2, v2) ∈ dictSet s k v) :
    (k2, v2) ∈ s ∨ (k2 = k ∧ v2 = v) := by
  induction s with
  | nil =>
    simp [dictSet] at h
    exact Or.inr h
  | cons e t ih =>
    obtain ⟨k3, v3⟩ := e
    by_cases hk : k3 = k
    · rw [show dictSet ((k3, v3) :: t) k v = (k, v) :: t from by simp [dictSet, hk]] at h
      rcases List.mem_cons.mp h with he | he
      · cases he
        exact Or.inr ⟨rfl, rfl⟩
      · exact Or.inl (List.mem_cons_of_mem _ he)
    · rw [show dictSet ((k3, v3) :: t) k v = (k3, v3) :: dictSet t k v from by
        simp [dictSet, hk]] at h
      rcases List.mem_cons.mp h with he | he
      · cases he
        exact Or.inl (List.mem_cons_self _ _)
      · rcases ih he with h2 | h2
        · exact Or.inl (List.mem_cons_of_mem _ h2)
        · exact Or.inr h2

/-- A successful lookup is a member of the dictionary. -/
theorem dget_mem {α : Type} (s : List (String × α)) (k : String) (v : α)
    (h : dget s k = some v) : (k, v) ∈ s := by
  induction s with
  | nil => cases h
  | cons e t ih =>
    obtain ⟨k2, v2⟩ := e
    by_cases hk : k2 = k
    · subst hk
      rw [show dget ((k2, v2) :: t) k2 = some v2 from by simp [dget]] at h
      cases h
      exact List.mem_cons_self _ _
    · rw [show dget ((k2, v2) :: t) k = dget t k from by simp [dget, hk]] at h
      exact List.mem_cons_of_mem _ (ih h)

/-- Parts reachable from `by_cat` after an `appendAt` are the old ones or
the appended part. -/
theorem mem_catParts_appendAt (m : List (String × List Part)) (k : String) (x q : Part) :
    q ∈ ((appendAt m k x).map Prod.snd).flatten
      ↔ q ∈ (m.map Prod.snd).flatten ∨ q = x := by
  induction m with
  | nil => simp [appendAt]
  | cons e t ih =>
    obtain ⟨k2, l2⟩ := e
    by_cases hk : k2 = k
    · rw [show appendAt ((k2, l2) :: t) k x = (k2, l2 ++ [x]) :: t from by
        simp [appendAt, hk]]
      simp only [List.map_cons, List.flatten_cons, List.mem_append, List.mem_cons,
        List.mem_singleton, List.not_mem_nil, or_false]
      tauto
    · rw [show appendAt ((k2, l2) :: t) k x = (k2, l2) :: appendAt t k x from by
        simp [appendAt, hk]]
      simp only [List.map_cons, List.flatten_cons, List.mem_append, ih]
      tauto

/-- `appendAt` preserves "stored category equals the index key" when the
appended part carries the key as its category. -/
theorem catKey_appendAt (m : List (String × List Part)) (k : String) (x : Part)
    (hx : x.category = k)
    (hm : ∀ k2 l2, (k2, l2) ∈ m → ∀ p, p ∈ l2 → p.category = k2) :
    ∀ k2 l2, (k2, l2) ∈ appendAt m k x → ∀ p, p ∈ l2 → p.category = k2 := by
  revert hm
  induction m with
  | nil =>
    intro _ k2 l2 hmem p hp
    simp [appendAt] at hmem
    obtain ⟨hk2, hl2⟩ := hmem
    subst hk2
    subst hl2
    simp at hp
    subst hp
    exact hx
  | cons e t ih =>
    obtain ⟨k3, l3⟩ := e
    intro hm k2 l2 hmem p hp
    by_cases hk : k3 = k
    · rw [show appendAt ((k3, l3) :: t) k x = (k3, l3 ++ [x]) :: t from by
        simp [appendAt, hk]] at hmem
      rcases List.mem_cons.mp hmem with he | he
      · cases he
        rcases List.mem_append.mp hp with hpl | hpx
        · exact hm k3 l3 (List.mem_cons_self _ _) p hpl
        · rw [List.mem_singleton] at hpx
          subst hpx
          rw [hx, hk]
      · exact hm k2 l2 (List.mem_cons_of_mem _ he) p hp
    · rw [show appendAt ((k3, l3) :: t) k x = (k3, l3) :: appendAt t k x from by
        simp [appendAt, hk]] at hmem
      rcases List.mem_cons.mp hmem with he | he
      · cases he
        exact hm k3 l3 (List.mem_cons_self _ _) p hp
      · exact ih (fun a b hh => hm a b (List.mem_cons_of_mem _ hh)) k2 l2 he p hp

/-- The catalog invariant: parts reachable from `by_cat` are indexed under
their id in `by_id`, every `by_id` entry is keyed by its part's id and
reachable from `by_cat`, and stored categories equal their index keys. -/
def CatInv (c : Catalog) : Prop :=
  (∀ p, p ∈ catParts c → dget c.by_id p.id = some p) ∧
  (∀ k p, (k, p) ∈ c.by_id → k = p.id ∧ p ∈ catParts c) ∧
  (∀ k l, (k, l) ∈ c.by_cat → ∀ p, p ∈ l → p.category = k)

/-- The empty catalog satisfies the invariant. -/
theorem catInv_empty : CatInv Catalog.empty := by
  refine ⟨?_, ?_, ?_⟩
  · intro p hp
    simp [Catalog.empty, catParts] at hp
  · intro k p h
    simp [Catalog.empty] at h
  · intro k l h
    simp [Catalog.empty] at h

/-- `add_part` preserves the invariant when the added id is fresh. -/
theorem catInv_add (c : Catalog) (p : Part) (hInv : CatInv c)
    (hfresh : ∀ q, q ∈ catParts c → ¬ q.id = p.id) : CatInv (add_part c p) := by
  obtain ⟨h1, h2, h3⟩ := hInv
  refine ⟨?_, ?_, ?_⟩
  · intro q hq
    rcases (mem_catParts_appendAt c.by_cat (normalize_category p.category) (recat p) q).mp
        hq with hold | hnew
    · rw [show (add_part c p).by_id = dictSet c.by_id p.id (recat p) from rfl]
      rw [dget_dictSet_ne c.by_id p.id q.id (recat p) (hfresh q hold)]
      exact h1 q hold
    · subst hnew
      rw [show (add_part c p).by_id = dictSet c.by_id p.id (recat p) from rfl]
      rw [show (recat p).id = p.id from rfl]
      exact dget_dictSet_self c.by_id p.id (recat p)
  · intro k q hkq
    rcases mem_dictSet_pairs c.by_id p.id (recat p) k q hkq with hold | hnew
    · obtain ⟨hk, hq⟩ := h2 k q hold
      refine ⟨hk, ?_⟩
      exact (mem_catParts_appendAt c.by_cat (normalize_category p.category)
        (recat p) q).mpr (Or.inl hq)
    · obtain ⟨hk, hq⟩ := hnew
      subst hk
      subst hq
      refine ⟨rfl, ?_⟩
      exact (mem_catParts_appendAt c.by_cat (normalize_category p.category)
        (recat p) (recat p)).mpr (Or.inr rfl)
  · exact catKey_appendAt c.by_cat (normalize_category p.category) (recat p) rfl h3

/-- Folding `add_part` over parts with fresh, pairwise-distinct ids
preserves the invariant. -/
theorem catInv_runAdds_aux (ps : List Part) :
    ∀ c : Catalog, CatInv c →
      (∀ q, q ∈ catParts c → ∀ r, r ∈ ps → ¬ q.id = r.id) →
      (ps.map Part.id).Nodup → CatInv (ps.foldl add_part c) := by
  induction ps with
  | nil => intro c h _ _; exact h
  | cons p t ih =>
    intro c hInv hdisj hnd
    simp only [List.foldl_cons]
    simp only [List.map_cons, List.nodup_cons] at hnd
    obtain ⟨hpid, hndt⟩ := hnd
    apply ih
    · exact catInv_add c p hInv (fun q hq => hdisj q hq p (List.mem_cons_self _ _))
    · intro q hq r hr
      rcases (mem_catParts_appendAt c.by_cat (normalize_category p.category)
          (recat p) q).mp hq with hold | hnew
      · exact hdisj q hold r (List.mem_cons_of_mem _ hr)
      · subst hnew
        rw [show (recat p).id = p.id from rfl]
        intro hcontra
        exact hpid (by
          rw [hcontra]
          exact List.mem_map.mpr ⟨r, hr, rfl⟩)
    · exact hndt

/-- Claim C6 (amended): after adding any sequence of parts with pairwise
distinct ids to an empty catalog, a part is reachable from `by_category`
exactly when it is reachable from `by_id`, and the category stored on every
filed part equals the canonical index key.  (With a repeated id the
`by_cat`-to-`by_id` direction fails; see the counterexample.) -/
theorem claim_C6_catalog_invariant_amended (ps : List Part)
    (hids : (ps.map Part.id).Nodup) :
    (∀ p, p ∈ catParts (runAdds ps) ↔ p ∈ idParts (runAdds ps)) ∧
    (∀ k l, (k, l) ∈ (runAdds ps).by_cat → ∀ p, p ∈ l → p.category = k) := by
  have hInv : CatInv (runAdds ps) := by
    apply catInv_runAdds_aux ps Catalog.empty catInv_empty
    · intro q hq
      simp [Catalog.empty, catParts] at hq
    · exact hids
  obtain ⟨h1, h2, h3⟩ := hInv
  refine ⟨?_, h3⟩
  intro p
  constructor
  · intro hp
    have hd := h1 p hp
    exact List.mem_map.mpr ⟨(p.id, p), dget_mem _ _ _ hd, rfl⟩
  · intro hp
    obtain ⟨⟨k, v⟩, hm, hv⟩ := List.mem_map.mp hp
    cases hv
    exact (h2 k v hm).2

/-- Witness for C6: two distinct-id parts; the CPU part is reachable both
ways. -/
theorem claim_C6_catalog_invariant_amended_witness :
    (⟨"a1", "CPU", "A", 0, []⟩ : Part)
        ∈ catParts (runAdds [⟨"a1", "CPU", "A", 0, []⟩, ⟨"b2", "RAM", "B", 0, []⟩])
      ↔ (⟨"a1", "CPU", "A", 0, []⟩ : Part)
        ∈ idParts (runAdds [⟨"a1", "CPU", "A", 0, []⟩, ⟨"b2", "RAM", "B", 0, []⟩]) :=
  (claim_C6_catalog_invariant_amended
    [⟨"a1", "CPU", "A", 0, []⟩, ⟨"b2", "RAM", "B", 0, []⟩] (by decide)).1
    ⟨"a1", "CPU", "A", 0, []⟩

/-- Claim C6, counterexample: re-adding a part with an id already present
overwrites `by_id` but leaves the stale part in `by_cat`, so the first part
is reachable from `by_category` but no longer from `by_id`. -/
theorem claim_C6_counterexample :
    (⟨"x", "CPU", "A", 0, []⟩ : Part)
        ∈ catParts (runAdds [⟨"x", "CPU", "A", 0, []⟩, ⟨"x", "CPU", "B", 0, []⟩]) ∧
    (⟨"x", "CPU", "A", 0, []⟩ : Part)
        ∉ idParts (runAdds [⟨"x", "CPU", "A", 0, []⟩, ⟨"x", "CPU", "B", 0, []⟩]) := by
  decide

end PCX
